import Mathlib

/-!
Verification of the core of the `rds` CLI (package `connect`): instance
resolution by name and by last-selection history, the versioned TTL-bound
instance cache, DR-replica credential-target redirection, home-region
secret scoping, the terminal-ownership handoff around the external client,
and the effect ordering of the top-level `Run`.

Strings are Go strings; list/character-level helpers below embed the Go
standard-library functions used by the source (`strings.Split`,
`strings.HasPrefix`, `strings.Contains`, `strings.TrimSpace`).
-/

/-- Embeds Go `strings.HasPrefix s pre`. -/
def hasPrefixStr (s pre : String) : Bool :=
  List.isPrefixOf pre.data s.data

/-- Embeds Go `strings.Contains s sub`: `sub` occurs contiguously in `s`. -/
def strContains (s sub : String) : Bool :=
  s.data.tails.any (fun t => List.isPrefixOf sub.data t)

/-- Splitting a character list at every occurrence of `c`
(Go `strings.Split` with a single-character separator). -/
def splitOnChar (c : Char) : List Char → List (List Char)
  | [] => [[]]
  | x :: xs =>
    match splitOnChar c xs with
    | [] => if x = c then [[], []] else [[x]]
    | g :: gs => if x = c then [] :: g :: gs else (x :: g) :: gs

/-- Embeds Go `strings.Split s ":"`. -/
def splitColon (s : String) : List String :=
  (splitOnChar ':' s.data).map (fun l => String.mk l)

/-- Go `unicode.IsSpace` restricted to the ASCII whitespace characters
(the identifiers handled by the tool are ASCII). -/
def isGoSpace (c : Char) : Bool :=
  c = ' ' || c = '\t' || c = '\n' || c = '\x0b' || c = '\x0c' || c = '\r'

/-- Embeds Go `strings.TrimSpace`. -/
def trimSpace (s : String) : String :=
  String.mk (((s.data.dropWhile isGoSpace).reverse.dropWhile isGoSpace).reverse)

/-- Surrounds a string with single quotes, as `fmt.Errorf("...'%s'...")`
does in the source's error messages. -/
def squote (s : String) : String :=
  String.singleton (Char.ofNat 39) ++ s ++ String.singleton (Char.ofNat 39)

/-- `InstanceInfo` describes one RDS PostgreSQL instance (source struct). -/
structure InstanceInfo where
  ID : String
  Host : String
  Size : String
  Port : Int
  Version : String
  SourceID : String
deriving DecidableEq, Repr

/-- `RDSCreds` holds the DB username/password from Secrets Manager. -/
structure RDSCreds where
  Username : String
  Password : String
deriving DecidableEq, Repr

/-- `instanceSecretTargetID` from the source: the credential target for a
selected instance, redirecting DR replicas to the master identifier parsed
out of an `arn:aws:rds:`-style replication-source reference. -/
def instanceSecretTargetID (selected : InstanceInfo) : String :=
  if selected.SourceID = "" then
    selected.ID
  else if hasPrefixStr selected.SourceID "arn:aws:rds:" then
    let parts := splitColon selected.SourceID
    if 7 ≤ parts.length then parts.getD 6 "" else selected.ID
  else
    selected.SourceID

/-- C1: the credential target is the instance's own identifier when the
replication-source reference is empty; field index 6 of the colon-split
reference when it carries the `arn:aws:rds:` resource-name marker and has
at least 7 fields; the instance's own identifier when it has the marker
but fewer than 7 fields; and the reference itself when it is a plain
identifier without the marker. -/
theorem instanceSecretTargetID_cases (inst : InstanceInfo) :
    (inst.SourceID = "" → instanceSecretTargetID inst = inst.ID)
    ∧ (hasPrefixStr inst.SourceID "arn:aws:rds:" = true →
        7 ≤ (splitColon inst.SourceID).length →
        instanceSecretTargetID inst = (splitColon inst.SourceID).getD 6 "")
    ∧ (hasPrefixStr inst.SourceID "arn:aws:rds:" = true →
        (splitColon inst.SourceID).length < 7 →
        instanceSecretTargetID inst = inst.ID)
    ∧ (inst.SourceID ≠ "" → hasPrefixStr inst.SourceID "arn:aws:rds:" = false →
        instanceSecretTargetID inst = inst.SourceID) := by
  refine ⟨fun h0 => ?_, fun hp hlen => ?_, fun hp hlen => ?_, fun h0 hp => ?_⟩
  · simp [instanceSecretTargetID, h0]
  · have h0 : inst.SourceID ≠ "" := by
      intro h
      rw [h] at hp
      exact absurd hp (by decide)
    simp [instanceSecretTargetID, h0, hp, hlen]
  · have h0 : inst.SourceID ≠ "" := by
      intro h
      rw [h] at hp
      exact absurd hp (by decide)
    simp [instanceSecretTargetID, h0, hp, Nat.not_le.mpr hlen]
  · simp [instanceSecretTargetID, h0, hp]

/-- Witness for C1: concrete evaluations on the spec's own examples — a
full replication ARN resolves to its 7th field, a short ARN falls back to
the instance's identifier, a plain reference is used directly, and an
empty reference yields the instance's identifier. -/
theorem instanceSecretTargetID_cases_witness :
    instanceSecretTargetID
      ⟨"replica-db", "h", "s", 5432, "15",
        "arn:aws:rds:ap-south-1:123456789012:db:master-db"⟩ = "master-db"
    ∧ instanceSecretTargetID
      ⟨"replica-db", "h", "s", 5432, "15", "arn:aws:rds:a:b:c"⟩ = "replica-db"
    ∧ instanceSecretTargetID
      ⟨"replica-db", "h", "s", 5432, "15", "master-db"⟩ = "master-db"
    ∧ instanceSecretTargetID ⟨"my-db", "h", "s", 5432, "15", ""⟩ = "my-db" := by
  refine ⟨?_, ?_, ?_, ?_⟩
  · exact ((instanceSecretTargetID_cases _).2.1 (by decide) (by decide)).trans (by decide)
  · exact (instanceSecretTargetID_cases _).2.2.1 (by decide) (by decide)
  · exact (instanceSecretTargetID_cases _).2.2.2 (by decide) (by decide)
  · exact (instanceSecretTargetID_cases _).1 rfl

/-- Outcome of `findByName`: a uniquely determined instance, delegation to
the interactive fuzzy finder over the matched subset, or the
`no instance matching '<name>'` error. -/
inductive FindResult where
  | found (inst : InstanceInfo)
  | fuzzy (candidates : List InstanceInfo)
  | notFound (msg : String)
deriving DecidableEq, Repr

/-- The error message built by `fmt.Errorf("no instance matching '%s'", name)`. -/
def noMatchMsg (name : String) : String :=
  "no instance matching " ++ squote name

/-- `findByName` from the source: first pass exact identifier match, second
pass substring match; a unique substring match is returned, several are
delegated to the fuzzy finder, none is an error. -/
def findByName (instances : List InstanceInfo) (name : String) : FindResult :=
  match List.find? (fun inst => inst.ID == name) instances with
  | some inst => FindResult.found inst
  | none =>
    match instances.filter (fun inst => strContains inst.ID name) with
    | [m] => FindResult.found m
    | [] => FindResult.notFound (noMatchMsg name)
    | ms => FindResult.fuzzy ms

/-- Two members of a list whose identifiers are pairwise distinct and whose
identifiers agree are the same member. -/
theorem eq_of_pairwise_ne_ID {l : List InstanceInfo}
    (hp : l.Pairwise (fun a b => a.ID ≠ b.ID)) {a b : InstanceInfo}
    (ha : a ∈ l) (hb : b ∈ l) (h : a.ID = b.ID) : a = b := by
  induction l with
  | nil => cases ha
  | cons x xs ih =>
    rcases List.pairwise_cons.mp hp with ⟨hx, hxs⟩
    rcases List.mem_cons.mp ha with rfl | ha' <;>
      rcases List.mem_cons.mp hb with rfl | hb'
    · rfl
    · exact absurd h (hx b hb')
    · exact absurd h.symm (hx a ha')
    · exact ih hxs ha' hb'

/-- C2: when some instance's identifier equals the name exactly (identifiers
being pairwise distinct), `findByName` returns that instance, whatever other
identifiers contain the name as a substring. -/
theorem findByName_exact (instances : List InstanceInfo) (name : String)
    (inst : InstanceInfo) (hmem : inst ∈ instances) (hid : inst.ID = name)
    (huniq : instances.Pairwise (fun a b => a.ID ≠ b.ID)) :
    findByName instances name = FindResult.found inst := by
  have hne : List.find? (fun i => i.ID == name) instances ≠ none := by
    intro hnone
    have := List.find?_eq_none.mp hnone inst hmem
    simp [hid] at this
  rcases Option.ne_none_iff_exists'.mp hne with ⟨j, hj⟩
  have hjmem : j ∈ instances := List.mem_of_find?_eq_some hj
  have hjid : j.ID = name := by
    have := List.find?_some hj
    simpa using this
  have : j = inst := eq_of_pairwise_ne_ID huniq hjmem hmem (hjid.trans hid.symm)
  subst this
  simp [findByName, hj]

/-- Witness for C2: the exact match `"metabase"` is returned even though
another identifier (`"metabase-prod"`) contains the name as a substring. -/
theorem findByName_exact_witness :
    findByName
      [⟨"metabase-prod", "h1", "s", 5432, "15", ""⟩,
       ⟨"metabase", "h2", "s", 5432, "15", ""⟩] "metabase"
      = FindResult.found ⟨"metabase", "h2", "s", 5432, "15", ""⟩ :=
  findByName_exact _ _ _ (by decide) rfl (by decide)

/-- C7: with no exact identifier match, a unique substring match is
returned, and zero substring matches fail with the
`no instance matching '<name>'` error carrying the attempted name. -/
theorem findByName_substring (instances : List InstanceInfo) (name : String)
    (hne : ∀ i ∈ instances, i.ID ≠ name) :
    (∀ m, instances.filter (fun i => strContains i.ID name) = [m] →
        findByName instances name = FindResult.found m)
    ∧ (instances.filter (fun i => strContains i.ID name) = [] →
        findByName instances name = FindResult.notFound (noMatchMsg name)) := by
  have hfind : List.find? (fun i => i.ID == name) instances = none := by
    apply List.find?_eq_none.mpr
    intro i hi
    simpa using hne i hi
  constructor
  · intro m hm
    simp [findByName, hfind, hm]
  · intro hm
    simp [findByName, hfind, hm]

/-- Witness for C7: the spec's scenario — `"metabasedev"` matches only
`"metabasedev-poc"` as a substring — and a name matching nothing fails
with the message naming it. -/
theorem findByName_substring_witness :
    findByName
      [⟨"staging-db-1", "h1", "s", 5432, "15", ""⟩,
       ⟨"metabasedev-poc", "h2", "s", 5432, "15", ""⟩] "metabasedev"
      = FindResult.found ⟨"metabasedev-poc", "h2", "s", 5432, "15", ""⟩
    ∧ findByName [⟨"staging-db-1", "h1", "s", 5432, "15", ""⟩] "nonexistent"
      = FindResult.notFound (noMatchMsg "nonexistent") := by
  constructor
  · exact (findByName_substring _ "metabasedev" (by decide)).1 _ (by decide)
  · exact (findByName_substring _ "nonexistent" (by decide)).2 (by decide)

/-- File contents by path: the model of the cache directory used for the
single-value last-selection files. -/
def FileStore : Type := String → Option String

/-- The path `<profile>_last_connected` inside the cache directory. -/
def lastConnectedPath (profile : String) : String :=
  profile ++ "_last_connected"

/-- `saveLastID` from the source: writes the identifier into the
profile's `_last_connected` file. -/
def saveLastID (st : FileStore) (id profile : String) : FileStore :=
  fun p => if p = lastConnectedPath profile then some id else st p

/-- The error of `loadLastConnected` when no history file exists. -/
def noHistoryMsg (profile : String) : String :=
  "no history found for profile " ++ squote profile

/-- The error of `loadLastConnected` when the recorded identifier is not in
the current instance list. -/
def lastNotFoundMsg (lastID : String) : String :=
  "last used instance " ++ squote lastID ++ " not found in current profile"

/-- `loadLastConnected` from the source: reads the `_last_connected` file,
trims it, and looks the identifier up in the current instance list. -/
def loadLastConnected (st : FileStore) (instances : List InstanceInfo)
    (profile : String) : Except String InstanceInfo :=
  match st (lastConnectedPath profile) with
  | none => Except.error (noHistoryMsg profile)
  | some data =>
    let lastID := trimSpace data
    match List.find? (fun inst => inst.ID == lastID) instances with
    | some inst => Except.ok inst
    | none => Except.error (lastNotFoundMsg lastID)

/-- C6: saving identifier `X` and loading it back returns the instance
whose identifier is `X` (the stored text being trimmed on read); loading
when the recorded identifier is absent from the instance list fails with
the error naming the identifier, and loading with no record fails with the
error naming the profile. -/
theorem lastSelection_spec (st : FileStore) (instances : List InstanceInfo)
    (profile : String) :
    (∀ id inst, inst ∈ instances → inst.ID = id → trimSpace id = id →
        instances.Pairwise (fun a b => a.ID ≠ b.ID) →
        loadLastConnected (saveLastID st id profile) instances profile
          = Except.ok inst)
    ∧ (∀ data, st (lastConnectedPath profile) = some data →
        (∀ i ∈ instances, i.ID ≠ trimSpace data) →
        loadLastConnected st instances profile
          = Except.error (lastNotFoundMsg (trimSpace data)))
    ∧ (st (lastConnectedPath profile) = none →
        loadLastConnected st instances profile
          = Except.error (noHistoryMsg profile)) := by
  refine ⟨fun id inst hmem hid htrim huniq => ?_, fun data hdata hne => ?_,
    fun hnone => ?_⟩
  · have hread : saveLastID st id profile (lastConnectedPath profile) = some id := by
      simp [saveLastID]
    have hfind : List.find? (fun i => i.ID == trimSpace id) instances = some inst := by
      have hne' : List.find? (fun i => i.ID == trimSpace id) instances ≠ none := by
        intro hnone
        have := List.find?_eq_none.mp hnone inst hmem
        simp [hid, htrim] at this
      rcases Option.ne_none_iff_exists'.mp hne' with ⟨j, hj⟩
      have hjmem : j ∈ instances := List.mem_of_find?_eq_some hj
      have hjid : j.ID = trimSpace id := by
        have := List.find?_some hj
        simpa using this
      have : j = inst :=
        eq_of_pairwise_ne_ID huniq hjmem hmem (by rw [hjid, htrim, hid])
      rw [← this, hj]
    simp [loadLastConnected, hread, hfind]
  · have hfind : List.find? (fun i => i.ID == trimSpace data) instances = none := by
      apply List.find?_eq_none.mpr
      intro i hi
      simpa using hne i hi
    simp [loadLastConnected, hdata, hfind]
  · simp [loadLastConnected, hnone]

/-- The empty cache directory. -/
def emptyStore : FileStore := fun _ => none

/-- Witness for C6: a concrete save/load round trip, a stale recorded
identifier, and a missing history file, each evaluated on explicit data. -/
theorem lastSelection_spec_witness :
    loadLastConnected
        (saveLastID emptyStore "metabasedev-poc" "testprofile")
        [⟨"metabasedev-poc", "h", "s", 5432, "15", ""⟩,
         ⟨"other-db", "h2", "s", 5432, "15", ""⟩] "testprofile"
      = Except.ok ⟨"metabasedev-poc", "h", "s", 5432, "15", ""⟩
    ∧ loadLastConnected (saveLastID emptyStore "deleted-db" "testprofile")
        [⟨"current-db", "h", "s", 5432, "15", ""⟩] "testprofile"
      = Except.error (lastNotFoundMsg "deleted-db")
    ∧ loadLastConnected emptyStore
        [⟨"some-db", "h", "s", 5432, "15", ""⟩] "noprofile"
      = Except.error (noHistoryMsg "noprofile") := by
  refine ⟨?_, ?_, ?_⟩
  · exact (lastSelection_spec _ _ "testprofile").1 "metabasedev-poc" _
      (by decide) rfl (by decide) (by decide)
  · have h := (lastSelection_spec (saveLastID emptyStore "deleted-db" "testprofile")
      [⟨"current-db", "h", "s", 5432, "15", ""⟩] "testprofile").2.1 "deleted-db"
      (by simp [saveLastID]) (by decide)
    simpa using h
  · exact (lastSelection_spec emptyStore _ "noprofile").2.2 rfl

/-- C10: any instance produced by a successful non-interactive resolution
— `findByName` or `loadLastConnected` — is an element of the input
instance list (hence all its fields are exactly as discovered). -/
theorem resolution_returns_member (instances : List InstanceInfo)
    (name : String) (st : FileStore) (profile : String) :
    (∀ inst, findByName instances name = FindResult.found inst →
        inst ∈ instances)
    ∧ (∀ inst, loadLastConnected st instances profile = Except.ok inst →
        inst ∈ instances) := by
  constructor
  · intro inst h
    unfold findByName at h
    rcases hfind : List.find? (fun i => i.ID == name) instances with _ | j
    · rw [hfind] at h
      rcases hfil : instances.filter (fun i => strContains i.ID name)
        with _ | ⟨m, _ | ⟨m2, ms⟩⟩ <;> rw [hfil] at h <;>
        simp only [] at h
      · cases h
      · cases h
        refine List.mem_of_mem_filter (p := fun i => strContains i.ID name) ?_
        rw [hfil]
        exact List.mem_singleton_self _
      · cases h
    · rw [hfind] at h
      cases h
      exact List.mem_of_find?_eq_some hfind
  · intro inst h
    unfold loadLastConnected at h
    rcases hread : st (lastConnectedPath profile) with _ | data <;>
      rw [hread] at h
    · cases h
    · rcases hfind : List.find? (fun i => i.ID == trimSpace data) instances
        with _ | j <;> simp only [hfind] at h
      · cases h
      · cases h
        exact List.mem_of_find?_eq_some hfind

/-- Witness for C10: both resolution paths evaluated on explicit data
return members of the input list. -/
theorem resolution_returns_member_witness :
    (⟨"db-a", "h", "s", 5432, "15", ""⟩ : InstanceInfo)
        ∈ [⟨"db-a", "h", "s", 5432, "15", ""⟩,
           ⟨"db-b", "h2", "s", 5432, "15", ""⟩]
    ∧ (⟨"db-b", "h2", "s", 5432, "15", ""⟩ : InstanceInfo)
        ∈ [⟨"db-a", "h", "s", 5432, "15", ""⟩,
           ⟨"db-b", "h2", "s", 5432, "15", ""⟩] := by
  constructor
  · exact (resolution_returns_member _ "db-a" emptyStore "p").1 _ (by decide)
  · exact (resolution_returns_member
      [⟨"db-a", "h", "s", 5432, "15", ""⟩, ⟨"db-b", "h2", "s", 5432, "15", ""⟩]
      "db-a" (saveLastID emptyStore "db-b" "p") "p").2 _ rfl

/-- `CacheVersion` from the source, incremented when the cache format changes. -/
def CacheVersion : String := "v2"

/-- `CacheEnvelope`: the on-disk cache format for the instance list. -/
structure CacheEnvelope where
  Version : String
  Instances : List InstanceInfo
deriving DecidableEq, Repr

/-- The cache directory as seen through the JSON layer: for each path,
`none` when the file is unreadable, otherwise the `json.Unmarshal` result
(`none` on parse failure, `some` envelope on success) and the file's
last-modified time in seconds. -/
def CacheFS : Type := String → Option (Option CacheEnvelope × Nat)

/-- The path `<profile>_<region>_instances.json` inside the cache directory. -/
def instancesCachePath (profile region : String) : String :=
  profile ++ "_" ++ region ++ "_instances.json"

/-- One hour, the cache freshness window, in seconds. -/
def timeHour : Nat := 3600

/-- The cache-consulting step of `GetInstancesWithCache`: the stored
instance list is returned only when the file reads, parses, carries the
current `CacheVersion` and is younger than one hour; otherwise nothing. -/
def cacheLoad (fs : CacheFS) (profile region : String) (now : Nat) :
    Option (List InstanceInfo) :=
  match fs (instancesCachePath profile region) with
  | some (some envelope, modTime) =>
    if envelope.Version = CacheVersion ∧ now - modTime < timeHour then
      some envelope.Instances
    else
      none
  | _ => none

/-- The cache-writing step of `GetInstancesWithCache`: stores an envelope
stamped with the current `CacheVersion` under the profile+region path. -/
def cacheSave (fs : CacheFS) (profile region : String)
    (records : List InstanceInfo) (now : Nat) : CacheFS :=
  fun p =>
    if p = instancesCachePath profile region then
      some (some ⟨CacheVersion, records⟩, now)
    else
      fs p

/-- One `DBInstance` as returned by the cloud discovery collaborator
(`rds.DescribeDBInstances`), restricted to the fields the source reads. -/
structure DBInstance where
  Engine : String
  DBInstanceIdentifier : String
  EndpointAddress : String
  DBInstanceClass : String
  EndpointPort : Int
  EngineVersion : String
  ReadReplicaSourceDBInstanceIdentifier : String
deriving DecidableEq, Repr

/-- The field mapping `GetInstancesWithCache` applies to each discovered
PostgreSQL instance. -/
def toInstanceInfo (db : DBInstance) : InstanceInfo :=
  { ID := db.DBInstanceIdentifier
    Host := db.EndpointAddress
    Size := db.DBInstanceClass
    Port := db.EndpointPort
    Version := db.EngineVersion
    SourceID := db.ReadReplicaSourceDBInstanceIdentifier }

/-- `GetInstancesWithCache` from the source: serve from a fresh matching
cache, otherwise call the discovery collaborator, keep only the
`postgres`-engine instances, write them back to the cache and return them.
Returns the instance list (or the discovery error) with the cache state. -/
def GetInstancesWithCache (fs : CacheFS) (profile region : String)
    (now : Nat) (describe : Except String (List DBInstance)) :
    Except String (List InstanceInfo) × CacheFS :=
  match cacheLoad fs profile region now with
  | some cached => (Except.ok cached, fs)
  | none =>
    match describe with
    | Except.error e => (Except.error e, fs)
    | Except.ok dbs =>
      let instances :=
        (dbs.filter (fun db => db.Engine == "postgres")).map toInstanceInfo
      (Except.ok instances, cacheSave fs profile region instances now)

/-- C4: the cache load step returns a stored list exactly when the file
parses into an envelope whose version tag is the current schema version
and whose age is under one hour; in every other situation the load step
yields nothing and `GetInstancesWithCache` falls through to the discovery
collaborator. -/
theorem cacheLoad_fresh_iff (fs : CacheFS) (profile region : String)
    (now : Nat) (l : List InstanceInfo) :
    (cacheLoad fs profile region now = some l ↔
      ∃ envelope modTime,
        fs (instancesCachePath profile region) = some (some envelope, modTime)
        ∧ envelope.Version = CacheVersion ∧ now - modTime < timeHour
        ∧ envelope.Instances = l)
    ∧ (cacheLoad fs profile region now = none →
        ∀ dbs, (GetInstancesWithCache fs profile region now
            (Except.ok dbs)).1
          = Except.ok
            ((dbs.filter (fun db => db.Engine == "postgres")).map
              toInstanceInfo)) := by
  constructor
  · constructor
    · intro h
      unfold cacheLoad at h
      split at h
      next envelope modTime heq =>
        split at h
        next hc =>
          cases h
          exact ⟨envelope, modTime, heq, hc.1, hc.2, rfl⟩
        next => cases h
      next => cases h
    · rintro ⟨envelope, modTime, hread, hv, ht, rfl⟩
      simp [cacheLoad, hread, hv, ht]
  · intro h dbs
    simp [GetInstancesWithCache, h]

/-- Witness for C4: a parsed fresh envelope with the current version is
served; a version-mismatched envelope, a stale envelope, a parse failure
and a missing file all force the discovery result through instead. -/
theorem cacheLoad_fresh_iff_witness :
    cacheLoad
        (cacheSave (fun _ => none) "ackodev" "ap-south-1"
          [⟨"db-a", "h", "s", 5432, "15", ""⟩] 100)
        "ackodev" "ap-south-1" 200
      = some [⟨"db-a", "h", "s", 5432, "15", ""⟩]
    ∧ (GetInstancesWithCache
        (fun _ => some (some ⟨"v1", [⟨"db-a", "h", "s", 5432, "15", ""⟩]⟩, 100))
        "ackodev" "ap-south-1" 200
        (Except.ok [⟨"postgres", "db-b", "hb", "sb", 5432, "16", ""⟩])).1
      = Except.ok [⟨"db-b", "hb", "sb", 5432, "16", ""⟩]
    ∧ (GetInstancesWithCache
        (fun _ => some (some ⟨"v2", [⟨"db-a", "h", "s", 5432, "15", ""⟩]⟩, 100))
        "ackodev" "ap-south-1" 5000
        (Except.ok [⟨"postgres", "db-b", "hb", "sb", 5432, "16", ""⟩])).1
      = Except.ok [⟨"db-b", "hb", "sb", 5432, "16", ""⟩]
    ∧ (GetInstancesWithCache (fun _ => some (none, 100))
        "ackodev" "ap-south-1" 200
        (Except.ok [⟨"postgres", "db-b", "hb", "sb", 5432, "16", ""⟩])).1
      = Except.ok [⟨"db-b", "hb", "sb", 5432, "16", ""⟩] := by
  refine ⟨?_, ?_, ?_, ?_⟩
  · exact ((cacheLoad_fresh_iff _ "ackodev" "ap-south-1" 200 _).1).mpr
      ⟨⟨CacheVersion, [⟨"db-a", "h", "s", 5432, "15", ""⟩]⟩, 100,
        by simp [cacheSave], rfl, by decide, rfl⟩
  · have h := ((cacheLoad_fresh_iff
      (fun _ => some (some ⟨"v1", [⟨"db-a", "h", "s", 5432, "15", ""⟩]⟩, 100))
      "ackodev" "ap-south-1" 200 []).2) (by decide)
      [⟨"postgres", "db-b", "hb", "sb", 5432, "16", ""⟩]
    simpa using h
  · have h := ((cacheLoad_fresh_iff
      (fun _ => some (some ⟨"v2", [⟨"db-a", "h", "s", 5432, "15", ""⟩]⟩, 100))
      "ackodev" "ap-south-1" 5000 []).2) (by decide)
      [⟨"postgres", "db-b", "hb", "sb", 5432, "16", ""⟩]
    simpa using h
  · have h := ((cacheLoad_fresh_iff (fun _ => some (none, 100))
      "ackodev" "ap-south-1" 200 []).2) (by decide)
      [⟨"postgres", "db-b", "hb", "sb", 5432, "16", ""⟩]
    simpa using h

/-- C8: a saved record list, loaded for the same profile+region key within
the one-hour freshness window and under an unchanged schema version, is
returned unchanged. -/
theorem cache_roundtrip (fs : CacheFS) (profile region : String)
    (records : List InstanceInfo) (t0 t1 : Nat)
    (hfresh : t1 - t0 < timeHour) :
    cacheLoad (cacheSave fs profile region records t0) profile region t1
      = some records := by
  simp [cacheLoad, cacheSave, hfresh]

/-- Witness for C8: a concrete round trip 30 minutes after saving. -/
theorem cache_roundtrip_witness :
    cacheLoad
        (cacheSave (fun _ => none) "ackoprod" "eu-west-1"
          [⟨"db-a", "h", "s", 5432, "15", ""⟩,
           ⟨"db-b", "h2", "s2", 5431, "16", "db-a"⟩] 1000)
        "ackoprod" "eu-west-1" 2800
      = some [⟨"db-a", "h", "s", 5432, "15", ""⟩,
              ⟨"db-b", "h2", "s2", 5431, "16", "db-a"⟩] :=
  cache_roundtrip _ "ackoprod" "eu-west-1" _ 1000 2800 (by decide)

/-- One request to the secret-store collaborator: the secret name and the
region the client was scoped to. -/
structure SecretRequest where
  secretID : String
  region : String
deriving DecidableEq, Repr

/-- The region of the Secrets Manager client built by `getRDSCredentials`:
the source constructs it from the operating configuration but overrides
its region with `homeRegion` via the options callback. -/
def smClientRegion (cfgRegion homeRegion : String) : String :=
  homeRegion

/-- The single secret-store request `getRDSCredentials` issues for a
selected instance: `root/<target>/psql` in the Secrets Manager client's
region. -/
def rdsSecretRequest (cfgRegion : String) (selected : InstanceInfo)
    (homeRegion : String) : SecretRequest :=
  { secretID := "root/" ++ instanceSecretTargetID selected ++ "/psql"
    region := smClientRegion cfgRegion homeRegion }

/-- `getRDSCredentials` from the source, with the secret store and the
JSON decoding of the payload as collaborator parameters. -/
def getRDSCredentials (cfgRegion : String) (selected : InstanceInfo)
    (homeRegion : String) (secretStore : SecretRequest → Option String)
    (decodeCreds : String → Option RDSCreds) : Except String RDSCreds :=
  let req := rdsSecretRequest cfgRegion selected homeRegion
  match secretStore req with
  | none =>
    Except.error
      ("failed to fetch secret " ++ squote req.secretID ++ " in " ++ req.region)
  | some payload =>
    match decodeCreds payload with
    | none => Except.error "unmarshal error"
    | some creds => Except.ok creds

/-- C9: the secret-store request is always scoped to the home region — for
every selected instance, whatever its replication source, and whatever the
operating region of the configuration — and its outcome is entirely
independent of the instance's operating region. -/
theorem rdsSecretRequest_home_region (cfgRegion : String)
    (selected : InstanceInfo) (homeRegion : String) :
    (rdsSecretRequest cfgRegion selected homeRegion).region = homeRegion
    ∧ ∀ otherRegion (secretStore : SecretRequest → Option String)
        (decodeCreds : String → Option RDSCreds),
        getRDSCredentials cfgRegion selected homeRegion secretStore decodeCreds
          = getRDSCredentials otherRegion selected homeRegion secretStore
              decodeCreds :=
  ⟨rfl, fun _ _ _ => rfl⟩

/-- Terminal-affecting system calls issued by `startAndWait`
(`TIOCSPGRP` with the child's or the parent's process group). -/
inductive TermEvent where
  | setForegroundChild
  | setForegroundParent
deriving DecidableEq, Repr

/-- Which process group owns the terminal after a sequence of `TIOCSPGRP`
calls, starting from the parent owning it. -/
inductive TermOwner where
  | parent
  | child
deriving DecidableEq, Repr

/-- Folds the `TIOCSPGRP` call sequence over the initial parent ownership. -/
def ownerAfter (events : List TermEvent) : TermOwner :=
  events.foldl
    (fun _ e =>
      match e with
      | TermEvent.setForegroundChild => TermOwner.child
      | TermEvent.setForegroundParent => TermOwner.parent)
    TermOwner.parent

/-- `startAndWait` from the source, as the sequence of terminal ioctls it
issues together with its success: an early return when `cmd.Start` fails
(before any terminal transfer), otherwise hand the terminal to the child
when standard input is a terminal, wait, and hand it back when standard
input is a terminal — whatever `cmd.Wait` returned. -/
def startAndWait (isTerminal startOk waitOk : Bool) :
    List TermEvent × Bool :=
  if !startOk then
    ([], false)
  else
    ((if isTerminal then [TermEvent.setForegroundChild] else [])
      ++ (if isTerminal then [TermEvent.setForegroundParent] else []),
     waitOk)

/-- C3 counterexample: when standard input is a terminal but the child
fails to start, `startAndWait` returns without ever issuing the restoring
`TIOCSPGRP` call — the restore does not execute on that exit path. -/
theorem startAndWait_no_restore_on_start_failure :
    TermEvent.setForegroundParent ∉ (startAndWait true false true).1 := by
  decide

/-- C3 (amended): the parent's process group owns the terminal when
`startAndWait` returns, on every path; and whenever the child was actually
started with standard input a terminal, the call sequence is exactly
hand-to-child then restore-to-parent — the restore runs even when the wait
fails, while a start failure returns before any transfer. -/
theorem startAndWait_ownership (isTerminal startOk waitOk : Bool) :
    ownerAfter (startAndWait isTerminal startOk waitOk).1 = TermOwner.parent
    ∧ (startOk = true → isTerminal = true →
        (startAndWait isTerminal startOk waitOk).1
          = [TermEvent.setForegroundChild, TermEvent.setForegroundParent]) := by
  cases isTerminal <;> cases startOk <;> cases waitOk <;> exact ⟨rfl, by decide⟩

/-- Witness for C3 (amended): with a terminal and a successful start but a
failing wait, the child receives the terminal and the parent reclaims it. -/
theorem startAndWait_ownership_witness :
    ownerAfter (startAndWait true true false).1 = TermOwner.parent
    ∧ (startAndWait true true false).1
      = [TermEvent.setForegroundChild, TermEvent.setForegroundParent] :=
  ⟨(startAndWait_ownership true true false).1,
   (startAndWait_ownership true true false).2 rfl rfl⟩

/-- Bridges `findByName` into `Run`'s selection step: a `fuzzy` outcome is
delegated to the interactive picker collaborator. -/
def resolveFind (fuzzyPick : List InstanceInfo → Except String InstanceInfo)
    (instances : List InstanceInfo) (name : String) :
    Except String InstanceInfo :=
  match findByName instances name with
  | FindResult.found inst => Except.ok inst
  | FindResult.fuzzy ms => fuzzyPick ms
  | FindResult.notFound msg => Except.error msg

/-- The collaborators and inputs of one `Run` invocation. -/
structure RunEnv where
  configRes : Except String Unit
  fetchRes : Except String (List InstanceInfo)
  args : List String
  lastConnectedFlag : Bool
  fuzzyPick : List InstanceInfo → Except String InstanceInfo
  lastStore : FileStore
  profile : String
  credsFor : InstanceInfo → Except String RDSCreds
  pgcliPath : Option String
  psqlPath : Option String
  clientFails : Bool

/-- The externally visible effects of `Run` that touch the last-used
record or launch a client. -/
inductive RunEvent where
  | saveLast (id : String)
  | launchExternal (bin : String) (failed : Bool)
  | launchNative
deriving DecidableEq, Repr

/-- Whether an event launches a client (external or native fallback). -/
def isLaunch : RunEvent → Bool
  | RunEvent.saveLast _ => false
  | RunEvent.launchExternal _ _ => true
  | RunEvent.launchNative => true

/-- `Run`'s selection step from the source: positional name argument
first, then the `--last` flag, then the interactive picker over the full
list. -/
def runSelect (env : RunEnv) (instances : List InstanceInfo) :
    Except String InstanceInfo :=
  match env.args with
  | name :: _ => resolveFind env.fuzzyPick instances name
  | [] =>
    if env.lastConnectedFlag then
      loadLastConnected env.lastStore instances env.profile
    else
      env.fuzzyPick instances

/-- `Run` from the source (the VPN check only warns and has no effect on
the flow): config load, instance fetch, selection, credential fetch, then
`saveLastID` followed by launching pgcli, psql or the native fallback.
Returns the emitted events in order together with `Run`'s result. -/
def Run (env : RunEnv) : List RunEvent × Except String Unit :=
  match env.configRes with
  | Except.error e => ([], Except.error e)
  | Except.ok _ =>
    match env.fetchRes with
    | Except.error e => ([], Except.error ("fetch instances: " ++ e))
    | Except.ok instances =>
      match runSelect env instances with
      | Except.error e => ([], Except.error ("selection: " ++ e))
      | Except.ok selected =>
        match env.credsFor selected with
        | Except.error e => ([], Except.error ("secrets: " ++ e))
        | Except.ok _ =>
          let launchEv :=
            match env.pgcliPath with
            | some bin => RunEvent.launchExternal bin env.clientFails
            | none =>
              match env.psqlPath with
              | some bin => RunEvent.launchExternal bin env.clientFails
              | none => RunEvent.launchNative
          ([RunEvent.saveLast selected.ID, launchEv], Except.ok ())

/-- C5: whenever `Run` fails — in particular on selection or credential
errors — it emits no effect at all, so the last-used record is untouched;
and whenever the credential fetch for the selected instance succeeds,
`Run` persists exactly the selected identifier and then launches a client,
in that order, whether or not the launched client itself fails. -/
theorem Run_lastUsed_policy (env : RunEnv) :
    (∀ e, (Run env).2 = Except.error e → (Run env).1 = [])
    ∧ (∀ instances selected, env.configRes = Except.ok ()
        → env.fetchRes = Except.ok instances
        → runSelect env instances = Except.ok selected
        → ∀ creds, env.credsFor selected = Except.ok creds
        → ∃ ev, (Run env).1 = [RunEvent.saveLast selected.ID, ev]
            ∧ isLaunch ev = true) := by
  constructor
  · intro e herr
    rcases hc : env.configRes with ec | u
    · simp [Run, hc]
    · rcases hf : env.fetchRes with ef | instances
      · simp [Run, hc, hf]
      · rcases hs : runSelect env instances with es | selected
        · simp [Run, hc, hf, hs]
        · rcases hcr : env.credsFor selected with ecr | creds
          · simp [Run, hc, hf, hs, hcr]
          · simp [Run, hc, hf, hs, hcr] at herr
  · intro instances selected hcfg hfetch hsel creds hcreds
    rcases hp : env.pgcliPath with _ | bin
    · rcases hq : env.psqlPath with _ | bin
      · exact ⟨RunEvent.launchNative,
          by simp [Run, hcfg, hfetch, hsel, hcreds, hp, hq], rfl⟩
      · exact ⟨RunEvent.launchExternal bin env.clientFails,
          by simp [Run, hcfg, hfetch, hsel, hcreds, hp, hq], rfl⟩
    · exact ⟨RunEvent.launchExternal bin env.clientFails,
        by simp [Run, hcfg, hfetch, hsel, hcreds, hp], rfl⟩

/-- A concrete fully successful environment: a positional name resolving
exactly, credentials available, pgcli on the path, and a client that then
fails. -/
def runEnvExample : RunEnv :=
  { configRes := Except.ok ()
    fetchRes := Except.ok [⟨"metabasedev-poc", "h", "s", 5432, "15", ""⟩]
    args := ["metabasedev-poc"]
    lastConnectedFlag := false
    fuzzyPick := fun _ => Except.error "cancelled"
    lastStore := emptyStore
    profile := "ackodev"
    credsFor := fun _ => Except.ok ⟨"root", "pw"⟩
    pgcliPath := some "pgcli"
    psqlPath := none
    clientFails := true }

/-- Witness for C5: in `runEnvExample` the selected identifier is saved
and then a client is launched, even though the launched client fails. -/
theorem Run_lastUsed_policy_witness :
    ∃ ev, (Run runEnvExample).1
        = [RunEvent.saveLast "metabasedev-poc", ev] ∧ isLaunch ev = true :=
  (Run_lastUsed_policy runEnvExample).2
    [⟨"metabasedev-poc", "h", "s", 5432, "15", ""⟩]
    ⟨"metabasedev-poc", "h", "s", 5432, "15", ""⟩
    rfl rfl rfl ⟨"root", "pw"⟩ rfl
